import Mathlib

/-!
Verification of the relayer tree-mutation engine (src/relayer/core/__init__.py
and src/relayer/core/helpers.py), shallowly embedded in Lean.

A YAML configuration tree is a Python value: dict / list / scalar
(int, float, bool, str).  Python floats are modelled as rationals
(no NaN/inf appears in any claim); Python `bool` is a subclass of `int`,
which matters for `isinstance(x, int)` checks and for `==` comparisons,
both modelled explicitly below.  Python `None` values do not occur in the
trees of any claim and are not modelled.  Dicts are association lists in
insertion order, exactly as Python dicts preserve it.
-/

inductive Node where
  | int : Int → Node
  | float : Rat → Node
  | bool : Bool → Node
  | str : String → Node
  | list : List Node → Node
  | map : List (Node × Node) → Node
deriving Repr

/-! Structural (Lean-level) decidable equality for `Node`; Python's `==`
is the separate `pyEq` further below. -/

mutual

def nodeBEq : Node → Node → Bool
  | .int a, .int b => a == b
  | .float a, .float b => a == b
  | .bool a, .bool b => a == b
  | .str a, .str b => a == b
  | .list xs, .list ys => nodeBEqL xs ys
  | .map m1, .map m2 => nodeBEqM m1 m2
  | _, _ => false
termination_by structural a _ => a

def nodeBEqL : List Node → List Node → Bool
  | [], [] => true
  | x :: xs, y :: ys => nodeBEq x y && nodeBEqL xs ys
  | _, _ => false
termination_by structural xs _ => xs

def nodeBEqM : List (Node × Node) → List (Node × Node) → Bool
  | [], [] => true
  | (k1, v1) :: m1, (k2, v2) :: m2 => nodeBEq k1 k2 && nodeBEq v1 v2 && nodeBEqM m1 m2
  | _, _ => false
termination_by structural m1 _ => m1

end

theorem nodeBEq_iff_all :
    (∀ a b, nodeBEq a b = true ↔ a = b) ∧
    (∀ m1 m2, nodeBEqM m1 m2 = true ↔ m1 = m2) ∧
    (∀ xs ys, nodeBEqL xs ys = true ↔ xs = ys) := by
  apply nodeBEq.mutual_induct
  all_goals intros
  all_goals try (simp_all [nodeBEq, nodeBEqL, nodeBEqM]; done)
  · rename_i t x hInt hFloat hBool hStr hList hMap
    cases t <;> cases x <;>
      first
        | exact (hInt _ _ rfl rfl).elim
        | exact (hFloat _ _ rfl rfl).elim
        | exact (hBool _ _ rfl rfl).elim
        | exact (hStr _ _ rfl rfl).elim
        | exact (hList _ _ rfl rfl).elim
        | exact (hMap _ _ rfl rfl).elim
        | simp [nodeBEq]
  all_goals
    rename_i t x hNil hCons
    cases t <;> cases x <;>
      first
        | exact (hNil rfl rfl).elim
        | exact (hCons _ _ _ _ rfl rfl).elim
        | exact (hCons _ _ _ _ _ _ rfl rfl).elim
        | rfl
        | (rename_i p _; obtain ⟨k0, v0⟩ := p; rfl)
        | (simp [nodeBEqL]; done)
        | (simp [nodeBEqM]; done)

instance : DecidableEq Node := fun a b =>
  decidable_of_iff (nodeBEq a b = true) (nodeBEq_iff_all.1 a b)

deriving instance DecidableEq for Except

/-- A bracketed list index extracted from a path segment: either a
non-negative integer (the source only creates one via `idx.isdigit()`)
or a raw string (symbolic index, `start`, `end`, or the empty string). -/
inductive PIdx where
  | int : Nat → PIdx
  | str : String → PIdx
deriving DecidableEq, Repr

/-- Error outcomes.  The source raises `RuntimeError` with distinct
messages (modelled as distinct constructors, named after the spec's
error taxonomy where one exists), `ValueError` / `IndexError` /
`TypeError` / `KeyError` from handlers or from plain Python operations,
and a generic `Exception` for the inline literal grammar
(the spec's `ValueSyntaxError`). -/
inductive PyErr where
  | keyNotFound            -- RuntimeError "Key not found in dict"
  | subsectionNotFound     -- RuntimeError "Subsection not found in dict"
  | leafWhereSubsection    -- RuntimeError "Leaf was found where subsection expected"
  | notAList               -- RuntimeError "Key is not a list"
  | listNotFound           -- RuntimeError "List doesn't exist"
  | indexOutOfRange        -- IndexError "index out of range" (insert mode)
  | invalidListIndex       -- ValueError "List index has invalid value: ..."
  | pyIndexError           -- uncaught Python IndexError (e.g. `del lst[i]` / `lst[i] = v` out of range)
  | pyTypeError            -- uncaught Python TypeError (e.g. `lst["a"]`, `3 < "a"`, `lst.insert(None, v)`)
  | pyKeyError             -- uncaught Python KeyError (dict access of a missing key)
  | valueSyntax            -- Exception "Wrong value syntax - ..."
deriving DecidableEq, Repr

/-- Python numeric value of a scalar (`bool` is an `int` in Python:
`True` is 1, `False` is 0). -/
def numVal : Node → Option Rat
  | .int i => some (i : Rat)
  | .float q => some q
  | .bool b => some (if b then 1 else 0)
  | _ => none

/-- Python `==` restricted to hashable scalars (numbers compare by value
across int/float/bool; strings compare to strings; everything else —
including any comparison involving a list or dict — is `false`).
This is the equality Python dict key lookup uses: dict keys are
necessarily hashable, hence scalars. -/
def pyEqScalar (a b : Node) : Bool :=
  match a, b with
  | .str s, .str t => s == t
  | _, _ =>
      match numVal a, numVal b with
      | some x, some y => x == y
      | _, _ => false

/-- Python dict lookup `m[k]` / `k in m`: first entry whose key compares
`==` to `k` (insertion order). -/
def pyLookup : List (Node × Node) → Node → Option Node
  | [], _ => none
  | (k2, v2) :: rest, k => if pyEqScalar k k2 then some v2 else pyLookup rest k

/-- Python dict assignment `m[k] = v`: overwrite the value of the entry
whose key compares `==` to `k` (the stored key object is kept, as in
Python), else append a new entry. -/
def pySet : List (Node × Node) → Node → Node → List (Node × Node)
  | [], k, v => [(k, v)]
  | (k2, v2) :: rest, k, v =>
      if pyEqScalar k k2 then (k2, v) :: rest else (k2, v2) :: pySet rest k v

/-- Python dict deletion `m.pop(k)`: drop the entry whose key compares
`==` to `k`. -/
def pyPop : List (Node × Node) → Node → List (Node × Node)
  | [], _ => []
  | (k2, v2) :: rest, k =>
      if pyEqScalar k k2 then rest else (k2, v2) :: pyPop rest k

/-!
`pyEq` models Python `==` on whole values: numbers by value across
int/float/bool, strings to strings, lists pointwise, dicts by equal
length plus, for every entry of the left dict, a key-lookup in the right
dict returning an `==` value.  (Python compares dicts without regard to
insertion order; since dict keys are hashable scalars, the scalar-keyed
lookup below captures exactly that.)
-/

mutual

def pyEq : Node → Node → Bool
  | .list xs, .list ys => pyEqL xs ys
  | .map m1, .map m2 => m1.length == m2.length && pyEqM m1 m2
  | .str s, .str t => s == t
  | a, b =>
      match numVal a, numVal b with
      | some x, some y => x == y
      | _, _ => false
termination_by structural a _ => a

def pyEqL : List Node → List Node → Bool
  | [], [] => true
  | x :: xs, y :: ys => pyEq x y && pyEqL xs ys
  | _, _ => false
termination_by structural xs _ => xs

def pyEqM : List (Node × Node) → List (Node × Node) → Bool
  | [], _ => true
  | (k, v) :: rest, m2 =>
      (match pyLookup m2 k with
       | some v2 => pyEq v v2
       | none => false) && pyEqM rest m2
termination_by structural m1 _ => m1

end

/-- helpers.as_list: wrap a non-list value as a one-element list; return a
list unchanged. -/
def as_list (v : Node) : List Node :=
  match v with
  | .list xs => xs
  | v => [v]

/-- Python `str()` of a node, used only when a scalar leaf is coerced into
a dict key (`section = {str(section): ...}`).  The float rendering is an
approximation of Python's repr (no claim exercises it); the list/map arms
are unreachable (such sections take the dict/list branches instead). -/
def pyStr : Node → String
  | .int i => toString i
  | .bool b => cond b "True" "False"
  | .str s => s
  | .float q => toString q
  | .list _ => "[...]"
  | .map _ => "\x7b...\x7d"

/-- Python `isinstance(x, int)`: true for int and bool (bool is a subclass
of int in Python). -/
def isIntLike : Node → Bool
  | .int _ => true
  | .bool _ => true
  | _ => false

def isList : Node → Bool
  | .list _ => true
  | _ => false

def isDict : Node → Bool
  | .map _ => true
  | _ => false

/-- Python `element == key` where `key` is a str: true only for an equal
string node. -/
def nodeEqStr (n : Node) (k : String) : Bool :=
  match n with
  | .str s => s == k
  | _ => false

def pyLookupStr (m : List (Node × Node)) (k : String) : Option Node :=
  pyLookup m (.str k)

def pySetStr (m : List (Node × Node)) (k : String) (v : Node) : List (Node × Node) :=
  pySet m (.str k) v

def pyPopStr (m : List (Node × Node)) (k : String) : List (Node × Node) :=
  pyPop m (.str k)

def hasKeyStr (m : List (Node × Node)) (k : String) : Bool :=
  (pyLookupStr m k).isSome

/-- Last position of a character in a character list. -/
def lastIdxOfAux (c : Char) : List Char → Nat → Option Nat
  | [], _ => none
  | x :: xs, i =>
      match lastIdxOfAux c xs (i + 1) with
      | some j => some j
      | none => if x == c then some i else none

def lastIdxOf (c : Char) (cs : List Char) : Option Nat :=
  lastIdxOfAux c cs 0

/-- Python `str.isdigit()` (restricted to ASCII digits): nonempty and all
digits. -/
def isDigits (s : String) : Bool :=
  !s.toList.isEmpty && s.toList.all (·.isDigit)

/-- Python `int()` on a digits-only string. -/
def digitsToNat (cs : List Char) : Nat :=
  cs.foldl (fun n c => n * 10 + (c.toNat - 48)) 0

/-!  Kernel-computable character-list replacements for the String API
(`trim`, `split`, `lower`, `in`): the core String functions recurse on
byte positions and do not reduce, so the model works on `toList`. -/

/-- Python `str.strip()`. -/
def pyTrim (s : String) : String :=
  (((s.toList.dropWhile (·.isWhitespace)).reverse.dropWhile (·.isWhitespace)).reverse).asString

/-- Python `str.lower()`. -/
def toLowerStr (s : String) : String :=
  (s.toList.map Char.toLower).asString

/-- Python `c in s` for a single character. -/
def containsChar (c : Char) (s : String) : Bool :=
  s.toList.any (· == c)

/-- Python `s.split(sep)` for a one-character separator (every separator
in the source is one character). -/
def splitChAux (c : Char) : List Char → List Char → List String
  | [], acc => [acc.reverse.asString]
  | x :: xs, acc =>
      if x == c then acc.reverse.asString :: splitChAux c xs []
      else splitChAux c xs (x :: acc)

def splitOnChar (c : Char) (s : String) : List String :=
  splitChAux c s.toList []

/-- `_enrich_level_index`: match `(?P<level>.*)\[(?P<idx>.*)\]` against the
segment (an anchored-at-start, greedy, not-anchored-at-end match: the
split point is the last `[` that precedes the last `]`; any trailing text
after that `]` is dropped).  A digits-only index becomes an integer, any
other index string is kept as a string. -/
def enrich_level_index (level : String) : String × Option PIdx :=
  let cs := level.toList
  match lastIdxOf ']' cs with
  | none => (level, none)
  | some j =>
      match lastIdxOf '[' (cs.take j) with
      | none => (level, none)
      | some i =>
          let name := (cs.take i).asString
          let idx := ((cs.drop (i + 1)).take (j - i - 1)).asString
          if isDigits idx then (name, some (.int (digitsToNat idx.toList)))
          else (name, some (.str idx))

/-- Python subscription `section[level]` with a str subscript: dict lookup
(KeyError when absent); subscribing a list with a str, or a scalar at
all, raises TypeError. -/
def getItemStr (sec : Node) (level : String) : Except PyErr Node :=
  match sec with
  | .map m =>
      match pyLookupStr m level with
      | some v => .ok v
      | none => .error .pyKeyError
  | _ => .error .pyTypeError

def getItemOpt (sec : Node) (level : String) : Option Node :=
  match sec with
  | .map m => pyLookupStr m level
  | _ => none

/-- Python `section[level] = v` on a dict (only used after a successful
`getItemStr` on the same section, so the non-dict arm is unreachable). -/
def setItemStr (sec : Node) (level : String) (v : Node) : Node :=
  match sec with
  | .map m => .map (pySetStr m level v)
  | s => s

/-- Position eligibility in `_get_subsection` / `_assign_subsection`:
`section_idx` is first normalized (`start` to 0, `end` to len-1), then a
position is eligible iff it equals the normalized index or no index was
given.  A symbolic (non-start/end) string index equals no int position. -/
def eligIdx (sidx : Option PIdx) (len i : Nat) : Bool :=
  match sidx with
  | none => true
  | some (.int n) => i == n
  | some (.str s) =>
      if s == "start" then i == 0
      else if s == "end" then (i : Int) == (len : Int) - 1
      else false

/-- List scan of `_get_subsection`: the first eligible position whose
element equals `key`, or is a dict containing `key` (returning that inner
value). -/
def get_sub_in_list (key : String) (sidx : Option PIdx) (len : Nat) :
    List Node → Nat → Option (Node × Nat)
  | [], _ => none
  | e :: es, i =>
      if nodeEqStr e key && eligIdx sidx len i then some (e, i)
      else
        match e with
        | .map m =>
            match pyLookupStr m key with
            | some v =>
                if eligIdx sidx len i then some (v, i)
                else get_sub_in_list key sidx len es (i + 1)
            | none => get_sub_in_list key sidx len es (i + 1)
        | _ => get_sub_in_list key sidx len es (i + 1)

/-- `_get_subsection`. -/
def get_subsection (sec : Node) (key : String) (sidx : Option PIdx) :
    Option Node × Option Nat :=
  match sec with
  | .map m => (pyLookupStr m key, none)
  | .list xs =>
      match get_sub_in_list key sidx xs.length xs 0 with
      | some (v, i) => (some v, some i)
      | none => (none, none)
  | _ => (none, none)

/-- List scan of `_assign_subsection`: every eligible matching position is
assigned (the source has no break in its loop). -/
def assign_in_list (key : String) (sub : Node) (sidx : Option PIdx) (len : Nat) :
    List Node → Nat → List Node
  | [], _ => []
  | e :: es, i =>
      let e1 :=
        if nodeEqStr e key && eligIdx sidx len i then sub
        else
          match e with
          | .map m =>
              if hasKeyStr m key && eligIdx sidx len i then .map (pySetStr m key sub) else e
          | _ => e
      e1 :: assign_in_list key sub sidx len es (i + 1)

/-- `_assign_subsection`. -/
def assign_subsection (sec : Node) (key : String) (sub : Node) (sidx : Option PIdx) : Node :=
  match sec with
  | .map m => if hasKeyStr m key then .map (pySetStr m key sub) else sec
  | .list xs => .list (assign_in_list key sub sidx xs.length xs 0)
  | _ => sec

/-- Operation flag bundle of `_modify_key` (spec §4.6). -/
structure Flags where
  append_mode : Bool
  list_insert_mode : Bool
  extend_mode : Bool
  rm_mode : Bool
  rm_value_mode : Bool
  ignore_not_found : Bool
deriving DecidableEq, Repr

/-- The six operations (Relayer.KeyOperations). -/
inductive KeyOperations where
  | Remove
  | Update
  | Add
  | RemoveListElement
  | ExtendList
  | InsertToList
deriving DecidableEq, Repr

/-- The flag combination `_mod_kvs` configures for each operation. -/
def mod_key_kwargs (op : KeyOperations) (ignore_not_found : Bool) : Flags :=
  let base : Flags :=
    { append_mode := false, list_insert_mode := false, extend_mode := false,
      rm_mode := false, rm_value_mode := false, ignore_not_found := ignore_not_found }
  match op with
  | .Update => base
  | .Add => { base with append_mode := true }
  | .ExtendList => { base with append_mode := true, extend_mode := true }
  | .InsertToList => { base with append_mode := true, list_insert_mode := true }
  | .Remove => { base with rm_mode := true }
  | .RemoveListElement => { base with rm_mode := true, rm_value_mode := true }

/-- Remove the first element of a Python list equal (`==`) to `x`
(`list.remove`). -/
def removeFirstPy : List Node → Node → List Node
  | [], _ => []
  | e :: es, x => if pyEq e x then es else e :: removeFirstPy es x

/-- Sublist search used for Python's substring test. -/
def hasSubList (n : List Char) : List Char → Bool
  | [] => n.isEmpty
  | c :: rest => n.isPrefixOf (c :: rest) || hasSubList n rest

/-- Python substring test `needle in haystack`. -/
def strContains (needle haystack : String) : Bool :=
  hasSubList needle.toList haystack.toList

/-!
The handlers below are the closures inside `_modify_key`.  They mutate
`section[level]` in place in Python; here each returns the updated
section, and `_handle_extend_list` / `_handle_insert_in_section`
additionally return the "direct insert" value when the source `return`s
one (Python `None` return = `Option.none` here).
-/

/-- `_handle_extend_list`.  The non-list arm is unreachable: every call
site has already checked `isinstance(section[level], list)`. -/
def handle_extend_list (value : Node) (sec : Node) (level : String)
    (lidx : Option PIdx) : Except PyErr (Node × Option Node) :=
  match getItemStr sec level with
  | .error e => .error e
  | .ok cur =>
      match cur with
      | .list xs =>
          let ev := as_list value
          match lidx with
          | some (.str "start") => .ok (sec, some (.list (ev ++ xs)))
          | some (.int n) =>
              .ok (setItemStr sec level (.list (xs.take n ++ ev ++ xs.drop n)), none)
          | none => .ok (setItemStr sec level (.list (xs ++ ev)), none)
          | some (.str "") => .ok (setItemStr sec level (.list (xs ++ ev)), none)
          | some (.str _) => .error .invalidListIndex
      | _ => .error .pyTypeError

/-- `_handle_add_to_list`.  The non-list arm is unreachable (caller has
checked); `lst[i] = v` out of range raises IndexError, a str subscript
raises TypeError, and `lst.insert` with a non-int index raises
TypeError. -/
def handle_add_to_list (f : Flags) (value : Node) (sec : Node) (level : String)
    (lidx : Option PIdx) : Except PyErr (Node × Option Node) :=
  if f.extend_mode then handle_extend_list value sec level lidx
  else
    match getItemStr sec level with
    | .error e => .error e
    | .ok cur =>
        match cur with
        | .list xs =>
            if lidx == some (.str "start") then
              .ok (setItemStr sec level (.list (value :: xs)), none)
            else if lidx == some (.str "end") then
              .ok (setItemStr sec level (.list (xs ++ [value])), none)
            else if f.list_insert_mode then
              match lidx with
              | some (.int n) =>
                  if n > xs.length then .error .indexOutOfRange
                  else .ok (setItemStr sec level (.list (xs.take n ++ [value] ++ xs.drop n)), none)
              | _ => .error .pyTypeError
            else
              match lidx with
              | some (.int n) =>
                  if n < xs.length then .ok (setItemStr sec level (.list (xs.set n value)), none)
                  else .error .pyIndexError
              | _ => .error .pyTypeError
        | _ => .error .pyTypeError

/-- `_handle_insert_in_section`.  The middle `extend_mode` branch is dead
code in the source (the first condition already covers `extend_mode`);
it is kept for fidelity. -/
def handle_insert_in_section (f : Flags) (value : Node) (sec : Node) (level : String)
    (lidx : Option PIdx) : Except PyErr (Node × Option Node) :=
  if lidx.isSome || f.extend_mode || f.list_insert_mode then
    match getItemStr sec level with
    | .error e => .error e
    | .ok cur =>
        if isList cur then handle_add_to_list f value sec level lidx
        else .error .notAList
  else if f.extend_mode then handle_extend_list value sec level lidx
  else .ok (sec, some value)

/-- `_handle_rm_by_value`.  `jl` models `simplejson.loads`: `none` means
it raised ValueError (value isn't JSON), `some d` the decoded value.
`loads` of a non-str (int index, or None) raises TypeError, which the
source's `except ValueError` does not catch.  The source always returns
`None` here, so the "ignored missing key" signal is always `false`. -/
def handle_rm_by_value (jl : String → Option Node) (sec : Node) (level : String)
    (rmv : Option PIdx) : Except PyErr (Node × Bool) :=
  match rmv with
  | some (.str s) =>
      match jl s with
      | none =>
          match getItemStr sec level with
          | .error e => .error e
          | .ok cur =>
              match cur with
              | .list xs =>
                  if xs.any (fun e => pyEq e (.str s)) then
                    .ok (setItemStr sec level (.list (removeFirstPy xs (.str s))), false)
                  else .ok (sec, false)
              | .map m =>
                  -- `in` on a dict is key membership; `.remove` would then raise AttributeError
                  if (pyLookup m (.str s)).isSome then .error .pyTypeError
                  else .ok (sec, false)
              | .str t =>
                  -- `in` on a str is substring; `.remove` would then raise AttributeError
                  if strContains s t then .error .pyTypeError
                  else .ok (sec, false)
              | _ => .error .pyTypeError
      | some d =>
          match getItemStr sec level with
          | .error e => .error e
          | .ok cur =>
              match cur with
              | .list xs =>
                  match xs.findIdx? (fun e => pyEq d e) with
                  | some i => .ok (setItemStr sec level (.list (xs.eraseIdx i)), false)
                  | none => .ok (sec, false)
              | _ => .error .pyTypeError
  | _ => .error .pyTypeError

/-- `_handle_rm_from_section`.  Returns the updated section and the
"returned True" signal (index out of range with ignore_not_found).
Note the source's bound check is `len(section[level]) < level_idx`:
deleting at an index equal to the length escapes it and raises
IndexError. -/
def handle_rm_from_section (f : Flags) (jl : String → Option Node) (sec : Node)
    (level : String) (lidx : Option PIdx) : Except PyErr (Node × Bool) :=
  if f.rm_value_mode then handle_rm_by_value jl sec level lidx
  else
    match lidx with
    | some li =>
        match getItemStr sec level with
        | .error e => .error e
        | .ok cur =>
            match cur with
            | .list xs =>
                match li with
                | .int n =>
                    if f.ignore_not_found && xs.length < n then .ok (sec, true)
                    else if n < xs.length then
                      .ok (setItemStr sec level (.list (xs.eraseIdx n)), false)
                    else .error .pyIndexError
                | .str _ => .error .pyTypeError
            | _ => .error .notAList
    | none =>
        -- remove entire level: section.pop(level)
        match sec with
        | .map m =>
            if hasKeyStr m level then .ok (.map (pyPopStr m level), false)
            else .error .pyKeyError
        | _ => .error .pyTypeError

/-- `update_section`, the main recursion of `_modify_key`.  Python's
in-place mutation through the alias `subsection` (which is the object at
`section[level]` for dict sections) is modelled by re-reading
`section[level]` after a handler ran; the final
`_assign_subsection` then writes that value back exactly as the source
does.  An empty path is unreachable (`requested_levels[0]` would raise
IndexError). -/
def update_section (f : Flags) (jl : String → Option Node) (value : Node) :
    List String → Node → Option PIdx → Except PyErr (Node × Bool)
  | [], _, _ => .error .pyIndexError
  | lvl :: rest, sec, sidx =>
      let lp := enrich_level_index lvl
      let level := lp.1
      let level_idx := lp.2
      let sub0 := (get_subsection sec level sidx).1
      if rest.isEmpty then
        match sub0 with
        | none =>
            if !f.append_mode then
              if f.rm_mode && f.ignore_not_found then .ok (sec, false)
              else .error .keyNotFound
            else
              match
                (if level_idx == some (.str "start") || level_idx == some (.str "end")
                    || level_idx == some (.int 0) then
                   .ok (Node.list (as_list value))
                 else if level_idx.isSome then .error PyErr.listNotFound
                 else .ok value : Except PyErr Node) with
              | .error e => .error e
              | .ok nv =>
                  match sec with
                  | .map m => .ok (.map (pySetStr m level nv), true)
                  | .list xs => .ok (.list (xs ++ [.map [(.str level, nv)]]), true)
                  | s => .ok (.map [(.str (pyStr s), .map [(.str level, nv)])], true)
        | some subsection =>
            if f.rm_mode then
              match handle_rm_from_section f jl sec level level_idx with
              | .error e => .error e
              | .ok (sec1, ignored) =>
                  if !ignored then
                    let sub1 := (getItemOpt sec1 level).getD subsection
                    .ok (assign_subsection sec1 level sub1 sidx, true)
                  else .ok (sec1, false)
            else
              if pyEq subsection value then
                .ok (assign_subsection sec level subsection sidx, true)
              else
                match handle_insert_in_section f value sec level level_idx with
                | .error e => .error e
                | .ok (sec1, di) =>
                    let sub1 :=
                      match di with
                      | some v => v
                      | none => (getItemOpt sec1 level).getD subsection
                    .ok (assign_subsection sec1 level sub1 sidx, true)
      else
        match sub0 with
        | none =>
            if !f.append_mode then .error .subsectionNotFound
            else
              match update_section f jl value rest (.map []) none with
              | .error e => .error e
              | .ok (inner, _) =>
                  match sec with
                  | .map m => .ok (.map (pySetStr m level inner), true)
                  | .list xs => .ok (.list (xs ++ [.map [(.str level, inner)]]), true)
                  | s => .ok (.map [(.str (pyStr s), .map [(.str level, inner)])], true)
        | some subsection =>
            match
              (if isIntLike subsection then
                 (if !f.append_mode then .error PyErr.leafWhereSubsection
                  else .ok ((Node.map [(.str level, .map [])]), true))
               else .ok (subsection, false) : Except PyErr (Node × Bool)) with
            | .error e => .error e
            | .ok (sub1, hc1) =>
                match update_section f jl value rest sub1 level_idx with
                | .error e => .error e
                | .ok (sub2, ch) =>
                    .ok (assign_subsection sec level sub2 sidx, hc1 || ch)

/-!  Value coercion (src/relayer/core/helpers.py) and the inline literal
grammar of `_mod_kvs` (src/relayer/core/__init__.py lines 215-277). -/

/-- The shape of a raw value flowing into `convert_value_to_yaml`: a plain
string, a list, or a dict (as built by the literal grammar).  Python
`None` (remove operations) never reaches the conversion arms modelled
here. -/
inductive PV where
  | str : String → PV
  | list : List PV → PV
  | dict : List (PV × PV) → PV
deriving Repr

/-- Python `int()` on an already-stripped string: optional sign then
digits (underscore digit grouping is not modelled; no claim uses it). -/
def parseIntPy (s : String) : Option Int :=
  let core : List Char → Option Nat := fun ds =>
    if ds.isEmpty then none
    else if ds.all (·.isDigit) then some (digitsToNat ds) else none
  match s.toList with
  | '+' :: ds => (core ds).map (fun n => (n : Int))
  | '-' :: ds => (core ds).map (fun n => -(n : Int))
  | ds => (core ds).map (fun n => (n : Int))

/-- Split a character list at the first character satisfying `p`
(that character excluded). -/
def breakAt (p : Char → Bool) : List Char → List Char × Option (List Char)
  | [] => ([], none)
  | c :: r =>
      if p c then ([], some r)
      else
        let ab := breakAt p r
        (c :: ab.1, ab.2)

/-- Exponent part of a Python float literal: optional sign then digits. -/
def parseExpPy (cs : List Char) : Option Int :=
  let core : List Char → Option Nat := fun ds =>
    if ds.isEmpty then none
    else if ds.all (·.isDigit) then some (digitsToNat ds) else none
  match cs with
  | '+' :: ds => (core ds).map (fun n => (n : Int))
  | '-' :: ds => (core ds).map (fun n => -(n : Int))
  | ds => (core ds).map (fun n => (n : Int))

/-- Python `float()` on an already-stripped string, as an exact rational:
`[sign] (digits [. digits*] | . digits) [(e|E) [sign] digits]`.
The special forms inf/infinity/nan and underscore grouping are not
modelled (no claim uses them; no NaN exists in the tree model). -/
def parseFloatPy (s : String) : Option Rat :=
  let cs0 := s.toList
  let sgncs : Int × List Char :=
    match cs0 with
    | '+' :: r => (1, r)
    | '-' :: r => (-1, r)
    | r => (1, r)
  let me := breakAt (fun c => c == 'e' || c == 'E') sgncs.2
  let exp : Option Int :=
    match me.2 with
    | none => some 0
    | some ecs => parseExpPy ecs
  match exp with
  | none => none
  | some e =>
      let mant := breakAt (fun c => c == '.') me.1
      let intp := mant.1
      let frac := (mant.2).getD []
      if intp.all (·.isDigit) && frac.all (·.isDigit) && (intp ≠ [] || frac ≠ []) then
        -- value = sign * digits(intp ++ frac) * 10 ^ (e - |frac|), as one exact rational
        let mantN : Int := (digitsToNat (intp ++ frac) : Int)
        let sh : Int := e - frac.length
        some (mkRat (sgncs.1 * mantN * ((10 : Int) ^ sh.toNat)) ((10 : Nat) ^ ((-sh).toNat)))
      else none

/-- helpers.try_convert_to_bool. -/
def try_convert_to_bool (s : String) : Option Bool :=
  let l := toLowerStr s
  if l == "true" || l == "t" || l == "y" || l == "yes" then some true
  else if l == "false" || l == "f" || l == "n" || l == "no" then some false
  else none

/-- helpers.single_value_convert: strip, then try int, float, bool, and
finally keep a (single-quoted) string of the stripped text. -/
def single_value_convert (s : String) : Node :=
  let t := pyTrim s
  match parseIntPy t with
  | some i => .int i
  | none =>
      match parseFloatPy t with
      | some q => .float q
      | none =>
          match try_convert_to_bool t with
          | some b => .bool b
          | none => .str t

/-! helpers.convert_value_to_yaml: recursively coerce every leaf string;
dict keys are coerced too, and assigned into a fresh dict in order. -/

mutual

def convert_value_to_yaml : PV → Node
  | .str s => single_value_convert s
  | .list xs => .list (convL xs)
  | .dict m => .map (convM m [])
termination_by structural v => v

def convL : List PV → List Node
  | [] => []
  | x :: xs => convert_value_to_yaml x :: convL xs
termination_by structural xs => xs

def convM : List (PV × PV) → List (Node × Node) → List (Node × Node)
  | [], acc => acc
  | (k, v) :: rest, acc =>
      convM rest (pySet acc (convert_value_to_yaml k) (convert_value_to_yaml v))
termination_by structural m _ => m

end

/-- Python `s.split(sep, 1)` for a one-character separator: the part
before the first occurrence and, when the separator occurs, the rest. -/
def splitOnce (sep : Char) (s : String) : String × Option String :=
  let ab := breakAt (· == sep) s.toList
  (ab.1.asString, ab.2.map List.asString)

/-- Python dict assignment with str keys (`real_value_dict[k] = v`). -/
def strSet : List (String × List String) → String → List String → List (String × List String)
  | [], k, v => [(k, v)]
  | (k2, v2) :: rest, k, v =>
      if k == k2 then (k2, v) :: rest else (k2, v2) :: strSet rest k v

/-- One `value_dict` group body: walk the comma-separated tokens keeping a
key list and a list of value-lists (zipped here as one list because the
source keeps them in lockstep).  A token with `:` starts a new key with a
one-element value list; any other token is appended to the most recent
key's value list — with no key yet, `values[-1]` raises IndexError
(caught as a syntax error). -/
def buildOneDict (vd : String) : Option (List (String × List String)) :=
  (splitOnChar ',' vd).foldl
    (fun acc tok =>
      match acc with
      | none => none
      | some l =>
          if containsChar ':' tok then
            some (l ++ [((splitOnce ':' tok).1, [((splitOnce ':' tok).2).getD ""])])
          else
            match l.getLast? with
            | some last => some (l.dropLast ++ [(last.1, last.2 ++ [tok])])
            | none => none)
    (some [])

/-- The `value_dicts` list-comprehension: split on `\x7d`, drop falsy
(empty) parts, and take element `[1]` of each part's split on `\x7b`
(IndexError when there is no `[1]` — caught as a syntax error). -/
def extract_value_dicts (value : String) : Option (List String) :=
  ((splitOnChar (Char.ofNat 125) value).filter (fun sv => sv ≠ "")).foldr
    (fun sv acc =>
      match acc with
      | none => none
      | some l =>
          match (splitOnChar (Char.ofNat 123) sv).get? 1 with
          | some x => some (x :: l)
          | none => none)
    (some [])

/-- Convert the per-group key/value-list pairs into the Python dict the
source builds: `real_value_dict[k] = v if len(v) > 1 else v[0]`. -/
def group_to_dict (l : List (String × List String)) : PV :=
  .dict ((l.foldl
    (fun acc kv =>
      strSet acc kv.1 kv.2)
    []).map (fun kv =>
      (PV.str kv.1,
       if kv.2.length > 1 then PV.list (kv.2.map PV.str) else PV.str (kv.2.headD ""))))

/-- The value-processing of one `_mod_kvs` iteration on a non-None raw
value string (source lines 215-277): top-level comma/brace detection,
the dict-literal grammar or the comma-list split, then
`convert_value_to_yaml`. -/
def mod_kvs_value (value : String) : Except PyErr Node :=
  if containsChar ',' value || containsChar (Char.ofNat 123) value then
    if containsChar (Char.ofNat 123) value then
      match extract_value_dicts value with
      | none => .error .valueSyntax
      | some vds =>
          match vds.foldr
              (fun vd acc =>
                match acc, buildOneDict vd with
                | some l, some g => some (group_to_dict g :: l)
                | _, _ => none)
              (some []) with
          | some pvs => .ok (convert_value_to_yaml (.list pvs))
          | none => .error .valueSyntax
    else
      .ok (convert_value_to_yaml
        (.list (((splitOnChar ',' value).filter (fun x => x ≠ "")).map PV.str)))
  else .ok (convert_value_to_yaml (.str value))

/-!  Deep merge (`_deep_merge_dicts` / `_merge_configs`). -/

mutual

/-- `_deep_merge_dicts`: for every key of `d2` in order, fold the per-key
merge step into `d1`. -/
def deep_merge_dicts : List (Node × Node) → List (Node × Node) → List (Node × Node)
  | d1, [] => d1
  | d1, (k, v) :: rest => deep_merge_dicts (merge_key d1 k v) rest
termination_by _ d2 => sizeOf d2

/-- The loop body of `_deep_merge_dicts` for one key of `d2`: recurse when
both values are dicts, keep `d1`'s value when equal, otherwise take
`d2`'s value; a key absent from `d1` is added. -/
def merge_key (d1 : List (Node × Node)) (k : Node) (v : Node) : List (Node × Node) :=
  match pyLookup d1 k with
  | some v1 =>
      match v1, v with
      | .map m1, .map m2 => pySet d1 k (.map (deep_merge_dicts m1 m2))
      | _, _ => if pyEq v1 v then d1 else pySet d1 k v
  | none => pySet d1 k v
termination_by sizeOf v

end

theorem deep_merge_dicts_nil (d1 : List (Node × Node)) :
    deep_merge_dicts d1 [] = d1 := by
  rw [deep_merge_dicts]

theorem deep_merge_dicts_cons (d1 : List (Node × Node)) (k v : Node)
    (rest : List (Node × Node)) :
    deep_merge_dicts d1 ((k, v) :: rest) = deep_merge_dicts (merge_key d1 k v) rest := by
  rw [deep_merge_dicts]

/-- `_merge_configs` (modulo the file load, an external collaborator):
deep-merge and report changed unconditionally. -/
def merge_configs (a b : List (Node × Node)) : List (Node × Node) × Bool :=
  (deep_merge_dicts a b, true)

/-!  #  Theorems

First the path-resolution predicate used to state claims about trees whose
relevant path runs through Map nodes (the reference situation all the
"terminal segment" claims describe), then helper lemmas, then one theorem
per claim (with witnesses / counterexamples).
-/

/-- The request path resolves through Map nodes to a leaf: every
non-terminal segment names a Map entry holding a Map, and the terminal
segment names an entry of the final Map (bracket indices are parsed from
each segment exactly as the engine parses them; dict navigation ignores
them). -/
def resolvesLeaf : Node → List String → Option Node
  | sec, [l] =>
      match sec with
      | .map m => pyLookupStr m (enrich_level_index l).1
      | _ => none
  | sec, l :: rest =>
      match sec with
      | .map m =>
          match pyLookupStr m (enrich_level_index l).1 with
          | some (.map mm) => resolvesLeaf (.map mm) rest
          | _ => none
      | _ => none
  | _, [] => none

/-- Keys of an association list are pairwise distinct under Python `==`
(automatic for lists that model Python dicts). -/
def nodupKeys : List (Node × Node) → Bool
  | [] => true
  | (k, _) :: rest => rest.all (fun e => !pyEqScalar k e.1) && nodupKeys rest

theorem pyEqScalar_symmT {a b : Node} (h : pyEqScalar a b = true) :
    pyEqScalar b a = true := by
  cases a <;> cases b <;> simp_all [pyEqScalar, numVal]

theorem pyEqScalar_transT {a b c : Node} (h1 : pyEqScalar a b = true)
    (h2 : pyEqScalar b c = true) : pyEqScalar a c = true := by
  cases a <;> cases b <;> cases c <;> simp_all [pyEqScalar, numVal]

theorem pyEqScalar_str_self (s : String) : pyEqScalar (.str s) (.str s) = true := by
  simp [pyEqScalar]

theorem pyLookup_congr {k k0 : Node} (m : List (Node × Node))
    (h : pyEqScalar k k0 = true) : pyLookup m k = pyLookup m k0 := by
  induction m with
  | nil => rfl
  | cons e rest ih =>
      obtain ⟨k2, v2⟩ := e
      have hiff : pyEqScalar k k2 = true ↔ pyEqScalar k0 k2 = true :=
        ⟨fun hh => pyEqScalar_transT (pyEqScalar_symmT h) hh,
         fun hh => pyEqScalar_transT h hh⟩
      simp only [pyLookup]
      cases hh : pyEqScalar k k2 with
      | true => simp [hh, hiff.mp hh]
      | false =>
          have h0 : pyEqScalar k0 k2 = false := by
            cases hh2 : pyEqScalar k0 k2 with
            | true => exact absurd (hiff.mpr hh2) (by simp [hh])
            | false => rfl
          simp [hh, h0, ih]

theorem pyLookup_pySet_self {k : Node} (m : List (Node × Node)) (v : Node)
    (hk : pyEqScalar k k = true) : pyLookup (pySet m k v) k = some v := by
  induction m with
  | nil => simp [pySet, pyLookup, hk]
  | cons e rest ih =>
      obtain ⟨k2, v2⟩ := e
      simp only [pySet]
      cases hh : pyEqScalar k k2 with
      | true => simp [pyLookup, hh]
      | false => simp [pyLookup, hh, ih]

theorem pyLookup_pySet_ne {k k0 : Node} (m : List (Node × Node)) (v : Node)
    (h : pyEqScalar k k0 = false) : pyLookup (pySet m k0 v) k = pyLookup m k := by
  induction m with
  | nil =>
      simp [pySet, pyLookup, h]
  | cons e rest ih =>
      obtain ⟨k2, v2⟩ := e
      simp only [pySet]
      cases hh : pyEqScalar k0 k2 with
      | true =>
          have hk2 : pyEqScalar k k2 = false := by
            cases hk2 : pyEqScalar k k2 with
            | true =>
                exact absurd (pyEqScalar_transT hk2 (pyEqScalar_symmT hh)) (by simp [h])
            | false => rfl
          simp [pyLookup, hk2]
      | false => simp [pyLookup, ih]

theorem pySet_lookup_self {k v : Node} {m : List (Node × Node)}
    (h : pyLookup m k = some v) : pySet m k v = m := by
  induction m with
  | nil => simp [pyLookup] at h
  | cons e rest ih =>
      obtain ⟨k2, v2⟩ := e
      simp only [pyLookup] at h
      simp only [pySet]
      cases hh : pyEqScalar k k2 with
      | true =>
          rw [hh] at h
          simp at h
          simp [h]
      | false =>
          rw [hh] at h
          simp at h
          simp [ih h]

theorem pySet_pySet {k : Node} (m : List (Node × Node)) (v w : Node)
    (hk : pyEqScalar k k = true) : pySet (pySet m k v) k w = pySet m k w := by
  induction m with
  | nil => simp [pySet, hk]
  | cons e rest ih =>
      obtain ⟨k2, v2⟩ := e
      simp only [pySet]
      cases hh : pyEqScalar k k2 with
      | true => simp [pySet, hh]
      | false => simp [pySet, hh, ih]

theorem pyLookupStr_isSome_hasKey {m : List (Node × Node)} {k : String} {v : Node}
    (h : pyLookupStr m k = some v) : hasKeyStr m k = true := by
  simp [hasKeyStr, h]

/-- `_assign_subsection` on a dict that already holds `v` at `key` is the
identity. -/
theorem assign_subsection_map_id {m : List (Node × Node)} {k : String} {v : Node}
    (sidx : Option PIdx) (h : pyLookupStr m k = some v) :
    assign_subsection (.map m) k v sidx = .map m := by
  simp [assign_subsection, pyLookupStr_isSome_hasKey h, pySetStr, pySet_lookup_self h]

theorem get_subsection_map (m : List (Node × Node)) (k : String) (sidx : Option PIdx) :
    get_subsection (.map m) k sidx = (pyLookupStr m k, none) := rfl

/-- C1 counterexample: on the tree `\x7b"k": "v"\x7d`, `Update k=v` with the
leaf already equal to the value leaves the tree unchanged but reports
changed = true, so the claim's "reports no change (changed = false)" is
false at this input. -/
theorem C1_counterexample :
    update_section (mod_key_kwargs .Update false) (fun _ => none) (.str "v") ["k"]
        (.map [(.str "k", .str "v")]) none =
      .ok (.map [(.str "k", .str "v")], true) ∧
    update_section (mod_key_kwargs .Update false) (fun _ => none) (.str "v") ["k"]
        (.map [(.str "k", .str "v")]) none ≠
      .ok (.map [(.str "k", .str "v")], false) := by
  constructor <;> decide

/-- C2 counterexample: on `\x7b"k": ["a", "b"]\x7d`, `Update k[end]=x` in plain
index-assign mode appends "x" (list grows to three elements) instead of
overwriting the last element, so the claim is false at this input. -/
theorem C2_counterexample :
    update_section (mod_key_kwargs .Update false) (fun _ => none) (.str "x") ["k[end]"]
        (.map [(.str "k", .list [.str "a", .str "b"])]) none =
      .ok (.map [(.str "k", .list [.str "a", .str "b", .str "x"])], true) ∧
    update_section (mod_key_kwargs .Update false) (fun _ => none) (.str "x") ["k[end]"]
        (.map [(.str "k", .list [.str "a", .str "b"])]) none ≠
      .ok (.map [(.str "k", .list [.str "a", .str "x"])], true) := by
  constructor <;> decide

/-- C3 (code bug): removing index 2 from the two-element list at `k` with
`ignore_not_found` set raises IndexError instead of the silent no-change
the claim (and the handler's own docstring) promise: the guard is
`len(section[level]) < level_idx`, which lets `level_idx == len` through
to `del`. -/
theorem C3_out_of_range_boundary :
    update_section (mod_key_kwargs .Remove true) (fun _ => none) (.str "") ["k[2]"]
        (.map [(.str "k", .list [.str "a", .str "b"])]) none =
      .error .pyIndexError := by
  decide

/-- C4 counterexample: removing the value "zzz" (not JSON, matching no
element) from `\x7b"k": ["a"]\x7d` leaves the tree unchanged but reports
changed = true, so the claim's "reports no change" is false at this
input. -/
theorem C4_counterexample :
    update_section (mod_key_kwargs .RemoveListElement false) (fun _ => none) (.str "")
        ["k[zzz]"] (.map [(.str "k", .list [.str "a"])]) none =
      .ok (.map [(.str "k", .list [.str "a"])], true) ∧
    update_section (mod_key_kwargs .RemoveListElement false) (fun _ => none) (.str "")
        ["k[zzz]"] (.map [(.str "k", .list [.str "a"])]) none ≠
      .ok (.map [(.str "k", .list [.str "a"])], false) := by
  constructor <;> decide

/-- C5 counterexample: on `\x7b"a": "hello"\x7d` (a string scalar under `a`),
`Update a.b=v` fails with KeyNotFoundError, not
LeafWhereSubsectionExpectedError: the source's scalar check is
`isinstance(subsection, int)`, so only int/bool scalars take that error;
a string is recursed into and the missing key is reported instead. -/
theorem C5_counterexample :
    update_section (mod_key_kwargs .Update false) (fun _ => none) (.str "v") ["a", "b"]
        (.map [(.str "a", .str "hello")]) none = .error .keyNotFound ∧
    update_section (mod_key_kwargs .Update false) (fun _ => none) (.str "v") ["a", "b"]
        (.map [(.str "a", .str "hello")]) none ≠ .error .leafWhereSubsection := by
  constructor <;> decide

/-- C7 counterexample: `Add k[0]=a,b` (a list value) on the empty tree
assigns the coerced list itself — `as_list` keeps a list as it is — so
the result is `\x7b"k": ["a", "b"]\x7d`, not the claim's single-element
wrapping `\x7b"k": [["a", "b"]]\x7d`. -/
theorem C7_counterexample :
    update_section (mod_key_kwargs .Add false) (fun _ => none)
        (.list [.str "a", .str "b"]) ["k[0]"] (.map []) none =
      .ok (.map [(.str "k", .list [.str "a", .str "b"])], true) ∧
    update_section (mod_key_kwargs .Add false) (fun _ => none)
        (.list [.str "a", .str "b"]) ["k[0]"] (.map []) none ≠
      .ok (.map [(.str "k", .list [.list [.str "a", .str "b"]])], true) := by
  constructor <;> decide

/-- C9: the inline literal grammar on the two inputs of the claim:
`"aa,,bb"` splits on top-level commas dropping the empty segment, and
`"\x7bbb:aa,dd:22.2\x7d,\x7bkk:1\x7d"` parses into two maps with every
leaf coerced — 22.2 to the float 111/5 and 1 to the integer 1. -/
theorem C9_literal_grammar :
    mod_kvs_value "aa,,bb" = .ok (.list [.str "aa", .str "bb"]) ∧
    mod_kvs_value "\x7bbb:aa,dd:22.2\x7d,\x7bkk:1\x7d" =
      .ok (.list [.map [(.str "bb", .str "aa"), (.str "dd", .float (mkRat 111 5))],
                  .map [(.str "kk", .int 1)]]) := by
  constructor <;> decide

/-- C10 counterexample: `ExtendList k[end]=a,b` on `\x7b"k": ["a", "b"]\x7d`,
whose coerced value equals the existing list, raises no error at all: the
equality short-circuit turns it into a no-op that reports changed = true,
so "the operation raises an error" is false at this input. -/
theorem C10_counterexample :
    update_section (mod_key_kwargs .ExtendList false) (fun _ => none)
        (.list [.str "a", .str "b"]) ["k[end]"]
        (.map [(.str "k", .list [.str "a", .str "b"])]) none =
      .ok (.map [(.str "k", .list [.str "a", .str "b"])], true) ∧
    update_section (mod_key_kwargs .ExtendList false) (fun _ => none)
        (.list [.str "a", .str "b"]) ["k[end]"]
        (.map [(.str "k", .list [.str "a", .str "b"])]) none ≠
      .error .invalidListIndex := by
  constructor <;> decide
/-- C8: a non-append operation whose terminal segment addresses an absent
key reports no change when it is a remove honoring `ignore_not_found`,
and fails with KeyNotFoundError in every other case (Update always, and
the removes without the flag). -/
theorem C8_absent_key_non_append (f : Flags) (jl : String → Option Node) (value : Node)
    (m : List (Node × Node)) (lvl : String) (sidx : Option PIdx)
    (hap : f.append_mode = false)
    (habs : pyLookupStr m (enrich_level_index lvl).1 = none) :
    update_section f jl value [lvl] (.map m) sidx =
      if f.rm_mode && f.ignore_not_found then .ok (.map m, false)
      else .error .keyNotFound := by
  simp only [update_section, get_subsection_map, habs, List.isEmpty, hap,
    Bool.not_false, if_true]

/-- Recursing into a scalar (non-list, non-dict) section under a
non-append operation: the subsection lookup finds nothing there, so with
one segment it is the terminal absent-key case (silent no-change for a
remove honoring `ignore_not_found`, KeyNotFoundError otherwise) and with
more segments it is SubsectionNotFoundError. -/
theorem update_section_scalar_sec (f : Flags) (jl : String → Option Node) (v : Node)
    (sec : Node) (l : String) (ls : List String) (sidx : Option PIdx)
    (hap : f.append_mode = false)
    (hsc : (isList sec || isDict sec) = false) :
    update_section f jl v (l :: ls) sec sidx =
      if ls.isEmpty then
        (if f.rm_mode && f.ignore_not_found then .ok (sec, false)
         else .error .keyNotFound)
      else .error .subsectionNotFound := by
  have hget : (get_subsection sec (enrich_level_index l).1 sidx).1 = none := by
    cases sec <;> simp_all [isList, isDict, get_subsection]
  rw [update_section.eq_def]
  cases ls with
  | nil => simp [hget, hap]
  | cons a as => simp [hget, hap]

/-- C5 (amended): a non-append operation whose path continues past a
scalar fails with LeafWhereSubsectionExpectedError when that scalar is an
integer or boolean (Python `isinstance(x, int)`); a float or string
scalar is instead recursed into: with more than one remaining segment the
operation fails with SubsectionNotFoundError, and with exactly one
remaining segment it fails with KeyNotFoundError unless it is a remove
honoring `ignore_not_found`, which silently reports no change. -/
theorem C5_leaf_where_subsection (f : Flags) (jl : String → Option Node) (value : Node)
    (m : List (Node × Node)) (lvl l2 : String) (rest : List String)
    (sub : Node) (sidx : Option PIdx)
    (hap : f.append_mode = false)
    (hL : pyLookupStr m (enrich_level_index lvl).1 = some sub) :
    (isIntLike sub = true →
      update_section f jl value (lvl :: l2 :: rest) (.map m) sidx =
        .error .leafWhereSubsection) ∧
    ((isIntLike sub || isList sub || isDict sub) = false →
      (rest = [] →
        update_section f jl value (lvl :: l2 :: rest) (.map m) sidx =
          if f.rm_mode && f.ignore_not_found then .ok (.map m, false)
          else .error .keyNotFound) ∧
      (rest ≠ [] →
        update_section f jl value (lvl :: l2 :: rest) (.map m) sidx =
          .error .subsectionNotFound)) := by
  constructor
  · intro hint
    simp only [update_section, get_subsection_map, hL, List.isEmpty, hint, hap]
    rfl
  · intro hscal
    have hni : isIntLike sub = false := by
      cases hx : isIntLike sub with
      | false => rfl
      | true => rw [hx] at hscal; simp at hscal
    have hsc : (isList sub || isDict sub) = false := by
      cases hx : isList sub with
      | true => rw [hx] at hscal; simp at hscal
      | false =>
          cases hy : isDict sub with
          | true => rw [hy] at hscal; simp at hscal
          | false => simp [hx, hy]
    constructor
    · rintro rfl
      have hs := update_section_scalar_sec f jl value sub l2 []
        (enrich_level_index lvl).2 hap hsc
      rw [update_section.eq_def]
      cases hri : f.rm_mode && f.ignore_not_found with
      | true =>
          simp [get_subsection_map, hL, hni, hs, hri,
            assign_subsection_map_id sidx hL]
      | false => simp [get_subsection_map, hL, hni, hs, hri]
    · intro hne
      obtain ⟨l3, rs, rfl⟩ : ∃ a as, rest = a :: as := by
        cases rest with
        | nil => exact absurd rfl hne
        | cons a as => exact ⟨a, as, rfl⟩
      have hs := update_section_scalar_sec f jl value sub l2 (l3 :: rs)
        (enrich_level_index lvl).2 hap hsc
      rw [update_section.eq_def]
      simp [get_subsection_map, hL, hni, hs]

theorem pyLookupStr_pySetStr_self (m : List (Node × Node)) (k : String) (v : Node) :
    pyLookupStr (pySetStr m k v) k = some v := by
  simpa [pyLookupStr, pySetStr] using
    pyLookup_pySet_self (k := .str k) m v (pyEqScalar_str_self k)

theorem pySetStr_pySetStr (m : List (Node × Node)) (k : String) (v w : Node) :
    pySetStr (pySetStr m k v) k w = pySetStr m k w := by
  simpa [pySetStr] using
    pySet_pySet (k := .str k) m v w (pyEqScalar_str_self k)

theorem assign_subsection_setItemStr (m : List (Node × Node)) (k : String) (v : Node)
    (sidx : Option PIdx) :
    assign_subsection (.map (pySetStr m k v)) k v sidx = .map (pySetStr m k v) :=
  assign_subsection_map_id sidx (pyLookupStr_pySetStr_self m k v)

/-- C7 (amended): an append-capable operation on an absent terminal key
with index `start`/`end`/`0` assigns `as_list` of the coerced value (a
one-element wrap only when the value is not already a list); any other
non-None index fails with ListNotFoundError, leaving the tree
unchanged. -/
theorem C7_absent_key_append (f : Flags) (jl : String → Option Node) (value : Node)
    (m : List (Node × Node)) (lvl k : String) (li : Option PIdx) (sidx : Option PIdx)
    (hap : f.append_mode = true)
    (henr : enrich_level_index lvl = (k, li))
    (habs : pyLookupStr m k = none) :
    (li = some (.str "start") ∨ li = some (.str "end") ∨ li = some (.int 0) →
      update_section f jl value [lvl] (.map m) sidx =
        .ok (.map (pySetStr m k (.list (as_list value))), true)) ∧
    (∀ pi, li = some pi → pi ≠ .str "start" → pi ≠ .str "end" → pi ≠ .int 0 →
      update_section f jl value [lvl] (.map m) sidx = .error .listNotFound) := by
  constructor
  · rintro (h | h | h) <;> subst h <;>
      simp [update_section, get_subsection_map, henr, habs, hap]
  · rintro pi rfl h1 h2 h3
    simp [update_section, get_subsection_map, henr, habs, hap, h1, h2, h3]

/-- C2 (amended): in plain index-assign mode (no extend, no insert, no
remove) on a Map entry holding a List, with the coerced value differing
from that List: an in-range integer index overwrites the element at that
position, while `start` inserts at position 0 and `end` appends — the
list grows rather than being overwritten at those symbolic positions. -/
theorem C2_index_assign (f : Flags) (jl : String → Option Node) (v : Node)
    (m : List (Node × Node)) (lvl k : String) (xs : List Node) (sidx : Option PIdx)
    (hext : f.extend_mode = false) (hins : f.list_insert_mode = false)
    (hrm : f.rm_mode = false)
    (hL : pyLookupStr m k = some (.list xs))
    (hne : pyEq (.list xs) v = false) :
    (∀ i, enrich_level_index lvl = (k, some (.int i)) → i < xs.length →
      update_section f jl v [lvl] (.map m) sidx =
        .ok (.map (pySetStr m k (.list (xs.set i v))), true)) ∧
    (enrich_level_index lvl = (k, some (.str "start")) →
      update_section f jl v [lvl] (.map m) sidx =
        .ok (.map (pySetStr m k (.list (v :: xs))), true)) ∧
    (enrich_level_index lvl = (k, some (.str "end")) →
      update_section f jl v [lvl] (.map m) sidx =
        .ok (.map (pySetStr m k (.list (xs ++ [v]))), true)) := by
  refine ⟨?_, ?_, ?_⟩
  · intro i henr hi
    simp [update_section, get_subsection_map, henr, hL, hne, hrm,
      handle_insert_in_section, getItemStr, isList, handle_add_to_list, hext, hins, hi,
      getItemOpt, setItemStr, pyLookupStr_pySetStr_self, assign_subsection_setItemStr]
  · intro henr
    simp [update_section, get_subsection_map, henr, hL, hne, hrm,
      handle_insert_in_section, getItemStr, isList, handle_add_to_list, hext, hins,
      getItemOpt, setItemStr, pyLookupStr_pySetStr_self, assign_subsection_setItemStr]
  · intro henr
    simp [update_section, get_subsection_map, henr, hL, hne, hrm,
      handle_insert_in_section, getItemStr, isList, handle_add_to_list, hext, hins,
      getItemOpt, setItemStr, pyLookupStr_pySetStr_self, assign_subsection_setItemStr]

/-- C10 (amended): `ExtendList` with terminal index `end` on an existing
List raises the invalid-list-index ValueError whenever the coerced value
differs from the list; when the value compares equal the equality
short-circuit makes the request a no-op that reports changed = true. -/
theorem C10_extend_end (f : Flags) (jl : String → Option Node) (v : Node)
    (m : List (Node × Node)) (lvl k : String) (xs : List Node) (sidx : Option PIdx)
    (hrm : f.rm_mode = false) (hext : f.extend_mode = true)
    (henr : enrich_level_index lvl = (k, some (.str "end")))
    (hL : pyLookupStr m k = some (.list xs)) :
    (pyEq (.list xs) v = false →
      update_section f jl v [lvl] (.map m) sidx = .error .invalidListIndex) ∧
    (pyEq (.list xs) v = true →
      update_section f jl v [lvl] (.map m) sidx = .ok (.map m, true)) := by
  constructor
  · intro hne
    simp [update_section, get_subsection_map, henr, hL, hne, hrm,
      handle_insert_in_section, getItemStr, isList, handle_add_to_list, hext,
      handle_extend_list]
  · intro heq
    simp [update_section, get_subsection_map, henr, hL, heq, hrm,
      assign_subsection_map_id sidx hL]

theorem findIdxQ_none_of_all {p : Node → Bool} {xs : List Node}
    (h : ∀ x ∈ xs, p x = false) : xs.findIdx? p = none := by
  induction xs with
  | nil => rfl
  | cons a l ih =>
      have ha := h a (by simp)
      have hl : l.findIdx? p = none := ih (fun y hy => h y (by simp [hy]))
      rw [List.findIdx?_cons]
      simp [ha, hl]

/-- C4 (amended): a RemoveListElement whose removal value matches no
element of the existing target List (neither as the JSON-decoded literal
nor by raw-text equality) leaves the tree unchanged but still reports
changed = true (the handler returns None, which the caller does not
treat as a quietly-ignored not-found case). -/
theorem C4_rm_value_no_match (jl : String → Option Node) (v : Node)
    (m : List (Node × Node)) (lvl k s : String) (xs : List Node)
    (sidx : Option PIdx) (inf : Bool)
    (henr : enrich_level_index lvl = (k, some (.str s)))
    (hL : pyLookupStr m k = some (.list xs))
    (hnm : (match jl s with
            | none => xs.all (fun e => !pyEq e (.str s))
            | some d => xs.all (fun e => !pyEq d e)) = true) :
    update_section (mod_key_kwargs .RemoveListElement inf) jl v [lvl] (.map m) sidx =
      .ok (.map m, true) := by
  cases hjs : jl s with
  | none =>
      rw [hjs] at hnm
      have hany : xs.any (fun e => pyEq e (.str s)) = false := by
        simp only [List.all_eq_true, Bool.not_eq_true'] at hnm
        simp [List.any_eq_false]
        exact hnm
      simp [update_section, get_subsection_map, henr, hL, mod_key_kwargs,
        handle_rm_from_section, handle_rm_by_value, hjs, getItemStr, hany,
        getItemOpt, assign_subsection_map_id sidx hL]
  | some d =>
      rw [hjs] at hnm
      have hfind : xs.findIdx? (fun e => pyEq d e) = none := by
        apply findIdxQ_none_of_all
        simp only [List.all_eq_true, Bool.not_eq_true'] at hnm
        exact hnm
      simp [update_section, get_subsection_map, henr, hL, mod_key_kwargs,
        handle_rm_from_section, handle_rm_by_value, hjs, getItemStr, hfind,
        getItemOpt, assign_subsection_map_id sidx hL]

/-- C1 (amended): an `Update path=V` whose path resolves through Map
nodes to an existing leaf already Python-equal to the coerced value
leaves the tree structurally unchanged, but reports changed = true, not
false (the equality short-circuit only skips the write, not the changed
flag). -/
theorem C1_equal_value_update (jl : String → Option Node) (value : Node) :
    ∀ (levels : List String) (sec leaf : Node) (sidx : Option PIdx),
      resolvesLeaf sec levels = some leaf → pyEq leaf value = true →
      update_section (mod_key_kwargs .Update false) jl value levels sec sidx =
        .ok (sec, true) := by
  intro levels
  induction levels with
  | nil => intro sec leaf sidx hres; simp [resolvesLeaf] at hres
  | cons lvl rest ih =>
      intro sec leaf sidx hres heq
      cases rest with
      | nil =>
          cases sec with
          | map m =>
              simp only [resolvesLeaf] at hres
              simp [update_section, get_subsection_map, hres, heq, mod_key_kwargs,
                assign_subsection_map_id sidx hres]
          | int i => simp [resolvesLeaf] at hres
          | float q => simp [resolvesLeaf] at hres
          | bool b => simp [resolvesLeaf] at hres
          | str s => simp [resolvesLeaf] at hres
          | list xs => simp [resolvesLeaf] at hres
      | cons l2 r2 =>
          cases sec with
          | map m =>
              simp only [resolvesLeaf] at hres
              cases hsub : pyLookupStr m (enrich_level_index lvl).1 with
              | none => rw [hsub] at hres; simp at hres
              | some sub =>
                  rw [hsub] at hres
                  cases sub with
                  | map mm =>
                      have hres2 : resolvesLeaf (.map mm) (l2 :: r2) = some leaf := by
                        simpa using hres
                      have hrec := ih (.map mm) leaf (enrich_level_index lvl).2 hres2 heq
                      rw [update_section.eq_def]
                      simp [get_subsection_map, hsub, isIntLike, hrec,
                        assign_subsection_map_id sidx hsub]
                  | int i => simp at hres
                  | float q => simp at hres
                  | bool b => simp at hres
                  | str s => simp at hres
                  | list xs => simp at hres
          | int i => simp [resolvesLeaf] at hres
          | float q => simp [resolvesLeaf] at hres
          | bool b => simp [resolvesLeaf] at hres
          | str s => simp [resolvesLeaf] at hres
          | list xs => simp [resolvesLeaf] at hres

theorem pyLookup_pySet_agree {k k0 : Node} (m : List (Node × Node)) (v : Node)
    (h : pyEqScalar k k0 = true) : pyLookup (pySet m k0 v) k = some v := by
  rw [pyLookup_congr _ h]
  exact pyLookup_pySet_self m v (pyEqScalar_transT (pyEqScalar_symmT h) h)

theorem pyLookup_merge_key_ne {k k0 : Node} (d1 : List (Node × Node)) (v0 : Node)
    (h : pyEqScalar k k0 = false) :
    pyLookup (merge_key d1 k0 v0) k = pyLookup d1 k := by
  rw [merge_key]
  cases h1 : pyLookup d1 k0 with
  | none => exact pyLookup_pySet_ne d1 v0 h
  | some v1 =>
      cases v1 <;> cases v0 <;>
        simp [pyLookup_pySet_ne _ _ h] <;>
        (split <;> simp [pyLookup_pySet_ne _ _ h])

theorem pyLookup_dm_untouched {k : Node} :
    ∀ (d2 d1 : List (Node × Node)), (∀ e ∈ d2, pyEqScalar k e.1 = false) →
      pyLookup (deep_merge_dicts d1 d2) k = pyLookup d1 k := by
  intro d2
  induction d2 with
  | nil => intro d1 _; rw [deep_merge_dicts_nil]
  | cons e rest ih =>
      intro d1 hall
      obtain ⟨k0, v0⟩ := e
      rw [deep_merge_dicts_cons]
      rw [ih (merge_key d1 k0 v0) (fun e he => hall e (by simp [he]))]
      exact pyLookup_merge_key_ne d1 v0 (hall (k0, v0) (by simp))

theorem pyLookup_eq_none_iff {k : Node} {m : List (Node × Node)} :
    pyLookup m k = none ↔ ∀ e ∈ m, pyEqScalar k e.1 = false := by
  induction m with
  | nil => simp [pyLookup]
  | cons e rest ih =>
      obtain ⟨k2, v2⟩ := e
      simp only [pyLookup]
      cases hh : pyEqScalar k k2 <;> simp_all

theorem merge_key_absent {d1 : List (Node × Node)} {k : Node} (v : Node)
    (hl : pyLookup d1 k = none) : merge_key d1 k v = pySet d1 k v := by
  rw [merge_key, hl]

theorem merge_key_maps {d1 : List (Node × Node)} {k : Node}
    {m1 : List (Node × Node)} (m2 : List (Node × Node))
    (hl : pyLookup d1 k = some (.map m1)) :
    merge_key d1 k (.map m2) = pySet d1 k (.map (deep_merge_dicts m1 m2)) := by
  rw [merge_key, hl]

theorem merge_key_not_maps {d1 : List (Node × Node)} {k v v1 : Node}
    (hl : pyLookup d1 k = some v1)
    (hnb : ∀ m1 m2, v1 = .map m1 → v = .map m2 → False) :
    merge_key d1 k v = if pyEq v1 v then d1 else pySet d1 k v := by
  rw [merge_key, hl]
  cases v1 <;> cases v <;> first | exact (hnb _ _ rfl rfl).elim | rfl

/-- C6: for every key of B, merge(A,B) recurses when both sides are Maps
and otherwise holds a value equal to B's (syntactically B's value when
overwritten or newly added, a Python-equal one when the equal-leaves
short-circuit kept A's); keys absent from B keep A's value; the merge
step always reports changed. -/
theorem C6_deep_merge (d1 d2 : List (Node × Node)) (h2 : nodupKeys d2 = true) :
    (∀ k a b, pyLookup d2 k = some (.map b) → pyLookup d1 k = some (.map a) →
      pyLookup (deep_merge_dicts d1 d2) k = some (.map (deep_merge_dicts a b))) ∧
    (∀ k v, pyLookup d2 k = some v →
      (∀ a b, pyLookup d1 k = some (.map a) → v = .map b → False) →
      ∃ w, pyLookup (deep_merge_dicts d1 d2) k = some w ∧ (w = v ∨ pyEq w v = true)) ∧
    (∀ k, pyLookup d2 k = none →
      pyLookup (deep_merge_dicts d1 d2) k = pyLookup d1 k) ∧
    (merge_configs d1 d2).2 = true := by
  induction d2 generalizing d1 with
  | nil =>
      refine ⟨?_, ?_, ?_, rfl⟩
      · intro k a b hk _; simp [pyLookup] at hk
      · intro k v hk _; simp [pyLookup] at hk
      · intro k _; rw [deep_merge_dicts_nil]
  | cons e rest ih =>
      obtain ⟨k0, v0⟩ := e
      have hall : ∀ e ∈ rest, pyEqScalar k0 e.1 = false := by
        simp only [nodupKeys, Bool.and_eq_true, List.all_eq_true,
          Bool.not_eq_true'] at h2
        exact h2.1
      have h2r : nodupKeys rest = true := by
        simp only [nodupKeys, Bool.and_eq_true] at h2
        exact h2.2
      refine ⟨?_, ?_, ?_, rfl⟩
      · intro k a b hk2 hk1
        rw [deep_merge_dicts_cons]
        simp only [pyLookup] at hk2
        cases hh : pyEqScalar k k0 with
        | true =>
            rw [hh] at hk2
            simp at hk2
            have hkrest : ∀ e ∈ rest, pyEqScalar k e.1 = false := by
              intro e he
              cases hx : pyEqScalar k e.1 with
              | false => rfl
              | true =>
                  exact absurd (pyEqScalar_transT (pyEqScalar_symmT hh) hx)
                    (by simp [hall e he])
            have hl10 : pyLookup d1 k0 = some (.map a) :=
              (pyLookup_congr d1 (pyEqScalar_symmT hh)).trans hk1
            subst hk2
            rw [pyLookup_dm_untouched rest _ hkrest,
              merge_key_maps b hl10, pyLookup_pySet_agree _ _ hh]
        | false =>
            rw [hh] at hk2
            simp at hk2
            have hk1' : pyLookup (merge_key d1 k0 v0) k = some (.map a) := by
              rw [pyLookup_merge_key_ne d1 v0 hh]; exact hk1
            exact (ih (merge_key d1 k0 v0) h2r).1 k a b hk2 hk1'
      · intro k v hk2 hnb
        rw [deep_merge_dicts_cons]
        simp only [pyLookup] at hk2
        cases hh : pyEqScalar k k0 with
        | true =>
            rw [hh] at hk2
            simp at hk2
            subst hk2
            have hkrest : ∀ e ∈ rest, pyEqScalar k e.1 = false := by
              intro e he
              cases hx : pyEqScalar k e.1 with
              | false => rfl
              | true =>
                  exact absurd (pyEqScalar_transT (pyEqScalar_symmT hh) hx)
                    (by simp [hall e he])
            rw [pyLookup_dm_untouched rest _ hkrest]
            cases hl : pyLookup d1 k0 with
            | none =>
                rw [merge_key_absent _ hl, pyLookup_pySet_agree _ _ hh]
                exact ⟨v0, rfl, .inl rfl⟩
            | some v1 =>
                have hnb' : ∀ m1 m2, v1 = .map m1 → v0 = .map m2 → False := by
                  intro m1 m2 e1 e2
                  exact hnb m1 m2 ((pyLookup_congr d1 hh).trans (e1 ▸ hl)) e2
                rw [merge_key_not_maps hl hnb']
                cases heq : pyEq v1 v0 with
                | true =>
                    simp only [heq, if_true]
                    exact ⟨v1, (pyLookup_congr d1 hh).trans hl, .inr heq⟩
                | false =>
                    simp only [heq, Bool.false_eq_true, if_false]
                    rw [pyLookup_pySet_agree _ _ hh]
                    exact ⟨v0, rfl, .inl rfl⟩
        | false =>
            rw [hh] at hk2
            simp at hk2
            have hnb' : ∀ a b, pyLookup (merge_key d1 k0 v0) k = some (.map a) →
                v = .map b → False := by
              intro a b ha hb
              exact hnb a b (by rw [← pyLookup_merge_key_ne d1 v0 hh]; exact ha) hb
            exact (ih (merge_key d1 k0 v0) h2r).2.1 k v hk2 hnb'
      · intro k hk
        rw [deep_merge_dicts_cons]
        simp only [pyLookup] at hk
        cases hh : pyEqScalar k k0 with
        | true => rw [hh] at hk; simp at hk
        | false =>
            rw [hh] at hk
            simp at hk
            rw [(ih (merge_key d1 k0 v0) h2r).2.2.1 k hk]
            exact pyLookup_merge_key_ne d1 v0 hh

/-- C1 witness: the amended claim at a concrete input — `Update a.b=5` on
`\x7b"a": \x7b"b": 5\x7d\x7d` (leaf already 5) keeps the tree and reports
changed = true. -/
theorem C1_witness :
    resolvesLeaf (.map [(.str "a", .map [(.str "b", .int 5)])]) ["a", "b"] =
      some (.int 5) ∧
    pyEq (.int 5) (.int 5) = true ∧
    update_section (mod_key_kwargs .Update false) (fun _ => none) (.int 5) ["a", "b"]
        (.map [(.str "a", .map [(.str "b", .int 5)])]) none =
      .ok (.map [(.str "a", .map [(.str "b", .int 5)])], true) :=
  ⟨by decide, by decide,
    C1_equal_value_update (fun _ => none) (.int 5) ["a", "b"]
      (.map [(.str "a", .map [(.str "b", .int 5)])]) (.int 5) none
      (by decide) (by decide)⟩

/-- C2 witness: the amended claim at a concrete input — `Update k[0]=x` on
`\x7b"k": ["a", "b"]\x7d` overwrites position 0. -/
theorem C2_witness :
    update_section (mod_key_kwargs .Update false) (fun _ => none) (.str "x") ["k[0]"]
        (.map [(.str "k", .list [.str "a", .str "b"])]) none =
      .ok (.map [(.str "k", .list [.str "x", .str "b"])], true) := by
  have h := (C2_index_assign (mod_key_kwargs .Update false) (fun _ => none) (.str "x")
      [(.str "k", .list [.str "a", .str "b"])] "k[0]" "k" [.str "a", .str "b"] none
      (by decide) (by decide) (by decide) (by decide) (by decide)).1 0
      (by decide) (by decide)
  simpa using h

/-- C4 witness: the amended claim at a concrete input — removing the
unmatched value "zz" from `\x7b"k": ["a"]\x7d` keeps the tree and reports
changed = true. -/
theorem C4_witness :
    update_section (mod_key_kwargs .RemoveListElement false) (fun _ => none) (.str "")
        ["k[zz]"] (.map [(.str "k", .list [.str "a"])]) none =
      .ok (.map [(.str "k", .list [.str "a"])], true) :=
  C4_rm_value_no_match (fun _ => none) (.str "") [(.str "k", .list [.str "a"])]
    "k[zz]" "k" "zz" [.str "a"] none false (by decide) (by decide) (by decide)

/-- C5 witness: the amended claim at concrete inputs — `Update a.b=v` on
`\x7b"a": 5\x7d` (integer scalar) fails with
LeafWhereSubsectionExpectedError; on `\x7b"a": "hello"\x7d` (string
scalar) the same request fails with KeyNotFoundError, `Remove a.b` with
`ignore_not_found` reports no change, and `Update a.b.c=v` fails with
SubsectionNotFoundError. -/
theorem C5_witness :
    update_section (mod_key_kwargs .Update false) (fun _ => none) (.str "v") ["a", "b"]
        (.map [(.str "a", .int 5)]) none = .error .leafWhereSubsection ∧
    update_section (mod_key_kwargs .Update false) (fun _ => none) (.str "v") ["a", "b"]
        (.map [(.str "a", .str "hello")]) none = .error .keyNotFound ∧
    update_section (mod_key_kwargs .Remove true) (fun _ => none) (.str "") ["a", "b"]
        (.map [(.str "a", .str "hello")]) none =
      .ok (.map [(.str "a", .str "hello")], false) ∧
    update_section (mod_key_kwargs .Update false) (fun _ => none) (.str "v")
        ["a", "b", "c"] (.map [(.str "a", .str "hello")]) none =
      .error .subsectionNotFound := by
  refine ⟨?_, ?_, ?_, ?_⟩
  · exact (C5_leaf_where_subsection (mod_key_kwargs .Update false) (fun _ => none)
      (.str "v") [(.str "a", .int 5)] "a" "b" [] (.int 5) none
      (by decide) (by decide)).1 (by decide)
  · have h := ((C5_leaf_where_subsection (mod_key_kwargs .Update false) (fun _ => none)
      (.str "v") [(.str "a", .str "hello")] "a" "b" [] (.str "hello") none
      (by decide) (by decide)).2 (by decide)).1 rfl
    simpa using h
  · have h := ((C5_leaf_where_subsection (mod_key_kwargs .Remove true) (fun _ => none)
      (.str "") [(.str "a", .str "hello")] "a" "b" [] (.str "hello") none
      (by decide) (by decide)).2 (by decide)).1 rfl
    simpa using h
  · exact ((C5_leaf_where_subsection (mod_key_kwargs .Update false) (fun _ => none)
      (.str "v") [(.str "a", .str "hello")] "a" "b" ["c"] (.str "hello") none
      (by decide) (by decide)).2 (by decide)).2 (by simp)

/-- C6 witness: the merge law at a concrete input — merging
`\x7b"a": 2, "b": 3\x7d` into `\x7b"a": 1\x7d` puts a value equal to B's 2
at key "a". -/
theorem C6_witness :
    nodupKeys [(.str "a", .int 2), (.str "b", .int 3)] = true ∧
    ∃ w, pyLookup (deep_merge_dicts [(.str "a", .int 1)]
        [(.str "a", .int 2), (.str "b", .int 3)]) (.str "a") = some w ∧
      (w = .int 2 ∨ pyEq w (.int 2) = true) := by
  refine ⟨by decide, ?_⟩
  refine (C6_deep_merge [(.str "a", .int 1)] [(.str "a", .int 2), (.str "b", .int 3)]
    (by decide)).2.1 (.str "a") (.int 2) (by decide) ?_
  intro a b h1 _
  rw [show pyLookup [((Node.str "a"), Node.int 1)] (.str "a") = some (.int 1) from by decide] at h1
  simp at h1

/-- C7 witness: the amended claim at a concrete input — `Add k[0]=n` on the
empty tree establishes `\x7b"k": ["n"]\x7d`. -/
theorem C7_witness :
    update_section (mod_key_kwargs .Add false) (fun _ => none) (.str "n") ["k[0]"]
        (.map []) none = .ok (.map [(.str "k", .list [.str "n"])], true) := by
  have h := (C7_absent_key_append (mod_key_kwargs .Add false) (fun _ => none) (.str "n")
      [] "k[0]" "k" (some (.int 0)) none (by decide) (by decide) (by decide)).1
      (.inr (.inr rfl))
  simpa using h

/-- C8 witness: the claim at a concrete input — removing the absent key
"zz" with `ignore_not_found` reports no change; `Update` on the same
input fails with KeyNotFoundError. -/
theorem C8_witness :
    update_section (mod_key_kwargs .Remove true) (fun _ => none) (.str "") ["zz"]
        (.map [(.str "a", .int 1)]) none = .ok (.map [(.str "a", .int 1)], false) ∧
    update_section (mod_key_kwargs .Update false) (fun _ => none) (.str "") ["zz"]
        (.map [(.str "a", .int 1)]) none = .error .keyNotFound := by
  constructor
  · have h := C8_absent_key_non_append (mod_key_kwargs .Remove true) (fun _ => none)
      (.str "") [(.str "a", .int 1)] "zz" none (by decide) (by decide)
    simpa using h
  · have h := C8_absent_key_non_append (mod_key_kwargs .Update false) (fun _ => none)
      (.str "") [(.str "a", .int 1)] "zz" none (by decide) (by decide)
    simpa using h

/-- C10 witness: the amended claim at a concrete input — `ExtendList
k[end]=x` on `\x7b"k": ["a"]\x7d` (value differs from the list) raises the
invalid-list-index error. -/
theorem C10_witness :
    update_section (mod_key_kwargs .ExtendList false) (fun _ => none) (.str "x")
        ["k[end]"] (.map [(.str "k", .list [.str "a"])]) none =
      .error .invalidListIndex :=
  (C10_extend_end (mod_key_kwargs .ExtendList false) (fun _ => none) (.str "x")
    [(.str "k", .list [.str "a"])] "k[end]" "k" [.str "a"] none
    (by decide) (by decide) (by decide) (by decide)).1 (by decide)
